import Mathlib

/-
  Verification of the LLM-judging pipeline (bachelor-thesis repository).

  Shallow embedding of the core modules:
    * `src/llm_judging/bt/util/helpers.py`  (window planning, validation, official guard)
    * `src/llm_judging/bt/db.py`            (run keys, qrel fetch, finalize)
    * `src/llm_judging/bt/call.py`          (retry orchestration)
    * `src/llm_judging/bt/parsing.py`       (greedy JSON block extraction)
    * `src/old/llm_judging/bt/util/parsing.py` (balanced-scan parser, score normalization)
    * `src/llm_judging/bt/pipeline.py`      (run_once, modelled as an event trace)

  Python `json.loads` and `int(...)` coercion are modelled exactly on the
  fragment the code exercises: JSON numbers are kept as exact rationals
  (a decimal literal always denotes a rational), so `int(float)` becomes
  truncation toward zero of the rational value.
-/

namespace BT

attribute [local semireducible] Rat.mul Rat.add Rat.sub Rat.inv

/-! ### Python JSON values (result of `json.loads`) -/

/-- A decoded JSON value as Python sees it.  `num q intLike` keeps the exact
    rational value of the literal; `intLike` is `true` when the literal had no
    fraction and no exponent (Python then produces an `int`, else a `float`). -/
inductive JValue where
  | null
  | bool (b : Bool)
  | num (q : Rat) (intLike : Bool)
  | str (s : String)
  | arr (elems : List JValue)
  | obj (fields : List (String × JValue))

/-- JSON whitespace accepted by Python `json.loads` between tokens. -/
def jsonWs (c : Char) : Bool :=
  c = ' ' || c = '\t' || c = '\n' || c = '\r'

/-- Drop leading JSON whitespace. -/
def skipJsonWs : List Char → List Char
  | [] => []
  | c :: rest => if jsonWs c then skipJsonWs rest else c :: rest

/-- Value of a hexadecimal digit. -/
def hexDigitVal (c : Char) : Option Nat :=
  if '0' ≤ c ∧ c ≤ '9' then some (c.toNat - '0'.toNat)
  else if 'a' ≤ c ∧ c ≤ 'f' then some (c.toNat - 'a'.toNat + 10)
  else if 'A' ≤ c ∧ c ≤ 'F' then some (c.toNat - 'A'.toNat + 10)
  else none

/-- Value of a decimal digit character. -/
def digitVal (c : Char) : Nat := c.toNat - '0'.toNat

/-- Decode the body of a JSON string literal (after the opening quote).
    Strict mode: raw control characters below U+0020 are rejected, escapes are
    the RFC escapes plus `\uXXXX`. -/
def decodeJStr (acc : List Char) : List Char → Option (String × List Char)
  | [] => none
  | '"' :: rest => some (String.mk acc.reverse, rest)
  | '\\' :: [] => none
  | '\\' :: 'u' :: h1 :: h2 :: h3 :: h4 :: rest3 =>
    (match hexDigitVal h1, hexDigitVal h2, hexDigitVal h3, hexDigitVal h4 with
     | some a, some b, some c2, some d =>
         decodeJStr (Char.ofNat (((a * 16 + b) * 16 + c2) * 16 + d) :: acc) rest3
     | _, _, _, _ => none)
  | '\\' :: e :: rest2 =>
    if e = '"' then decodeJStr ('"' :: acc) rest2
    else if e = '\\' then decodeJStr ('\\' :: acc) rest2
    else if e = '/' then decodeJStr ('/' :: acc) rest2
    else if e = 'b' then decodeJStr (Char.ofNat 8 :: acc) rest2
    else if e = 'f' then decodeJStr (Char.ofNat 12 :: acc) rest2
    else if e = 'n' then decodeJStr ('\n' :: acc) rest2
    else if e = 'r' then decodeJStr ('\r' :: acc) rest2
    else if e = 't' then decodeJStr ('\t' :: acc) rest2
    else none
  | c :: rest =>
    if c.toNat < 32 then none
    else decodeJStr (c :: acc) rest

/-- Longest prefix of decimal digits, and the rest. -/
def takeDigits : List Char → List Char × List Char
  | [] => ([], [])
  | c :: rest =>
    if c.isDigit then
      let (ds, r) := takeDigits rest
      (c :: ds, r)
    else ([], c :: rest)

/-- Numeric value of a digit list. -/
def digitsToNat (ds : List Char) : Nat :=
  ds.foldl (fun a c => a * 10 + digitVal c) 0

/-- Decode a JSON number literal at the head of the input, following the JSON
    grammar used by Python (`-? (0 | [1-9][0-9]*) (\.[0-9]+)? ([eE][+-]?[0-9]+)?`;
    a longer digit run after a leading `0` is simply left in the remainder,
    where it fails as trailing data, as it does in `json.loads`). -/
def decodeJNum (cs : List Char) : Option (JValue × List Char) :=
  let (neg, cs1) := match cs with | '-' :: r => (true, r) | _ => (false, cs)
  match cs1 with
  | [] => none
  | c :: rest =>
    if ¬ c.isDigit then none
    else
      let (intDs, cs2) := if c = '0' then ([c], rest) else takeDigits (c :: rest)
      let (fracDs, cs3) :=
        match cs2 with
        | '.' :: r =>
          match takeDigits r with
          | ([], _) => ([], cs2)
          | (ds, r2) => (ds, r2)
        | _ => ([], cs2)
      let hasFrac := fracDs ≠ []
      let (expOk, expNeg, expDs, cs4) :=
        match cs3 with
        | 'e' :: r | 'E' :: r =>
          match r with
          | '+' :: r2 =>
            (match takeDigits r2 with
             | ([], _) => (false, false, ([] : List Char), cs3)
             | (ds, r3) => (true, false, ds, r3))
          | '-' :: r2 =>
            (match takeDigits r2 with
             | ([], _) => (false, false, ([] : List Char), cs3)
             | (ds, r3) => (true, true, ds, r3))
          | _ =>
            (match takeDigits r with
             | ([], _) => (false, false, ([] : List Char), cs3)
             | (ds, r3) => (true, false, ds, r3))
        | _ => (false, false, ([] : List Char), cs3)
      let mantissa : Nat := digitsToNat intDs * 10 ^ fracDs.length + digitsToNat fracDs
      let signed : Int := if neg then -(mantissa : Int) else (mantissa : Int)
      let base : Rat := (signed : Rat) / ((10 : Rat) ^ fracDs.length)
      let expVal : Int :=
        if expOk then (if expNeg then -(digitsToNat expDs : Int) else (digitsToNat expDs : Int)) else 0
      let scaled : Rat :=
        if 0 ≤ expVal then base * (10 : Rat) ^ expVal.toNat
        else base / ((10 : Rat) ^ (-expVal).toNat)
      some (JValue.num scaled (¬ hasFrac ∧ ¬ expOk), cs4)

/-- Insert a key into a decoded object the way a Python `dict` does: a repeated
    key overwrites the value but keeps the original position. -/
def dictInsert (fields : List (String × JValue)) (k : String) (v : JValue) :
    List (String × JValue) :=
  match fields with
  | [] => [(k, v)]
  | (k0, v0) :: rest =>
    if k0 = k then (k0, v) :: rest else (k0, v0) :: dictInsert rest k v

mutual

/-- Decode one JSON value at the head of the input (fuel-indexed; every
    recursive call consumes at least one input character, so any fuel of at
    least `input length + 1` is enough). -/
def decodeJValue : Nat → List Char → Option (JValue × List Char)
  | 0, _ => none
  | fuel + 1, cs =>
    match skipJsonWs cs with
    | [] => none
    | c :: rest =>
      if c = 'n' then
        match rest with
        | 'u' :: 'l' :: 'l' :: r => some (JValue.null, r)
        | _ => none
      else if c = 't' then
        match rest with
        | 'r' :: 'u' :: 'e' :: r => some (JValue.bool true, r)
        | _ => none
      else if c = 'f' then
        match rest with
        | 'a' :: 'l' :: 's' :: 'e' :: r => some (JValue.bool false, r)
        | _ => none
      else if c = '"' then
        match decodeJStr [] rest with
        | some (s, r) => some (JValue.str s, r)
        | none => none
      else if c = '{' then
        match skipJsonWs rest with
        | '}' :: r => some (JValue.obj [], r)
        | other => decodeJMembers fuel other []
      else if c = '[' then
        match skipJsonWs rest with
        | ']' :: r => some (JValue.arr [], r)
        | other => decodeJItems fuel other []
      else if c = '-' ∨ c.isDigit then decodeJNum (c :: rest)
      else none

/-- Decode the members of an object after the opening brace (non-empty case). -/
def decodeJMembers : Nat → List Char → List (String × JValue) →
    Option (JValue × List Char)
  | 0, _, _ => none
  | fuel + 1, cs, acc =>
    match skipJsonWs cs with
    | '"' :: rest =>
      match decodeJStr [] rest with
      | some (k, r1) =>
        match skipJsonWs r1 with
        | ':' :: r2 =>
          match decodeJValue fuel r2 with
          | some (v, r3) =>
            let acc2 := dictInsert acc k v
            match skipJsonWs r3 with
            | ',' :: r4 => decodeJMembers fuel r4 acc2
            | '}' :: r4 => some (JValue.obj acc2, r4)
            | _ => none
          | none => none
        | _ => none
      | none => none
    | _ => none

/-- Decode the items of an array after the opening bracket (non-empty case). -/
def decodeJItems : Nat → List Char → List JValue → Option (JValue × List Char)
  | 0, _, _ => none
  | fuel + 1, cs, acc =>
    match decodeJValue fuel cs with
    | some (v, r1) =>
      match skipJsonWs r1 with
      | ',' :: r2 => decodeJItems fuel r2 (acc ++ [v])
      | ']' :: r2 => some (JValue.arr (acc ++ [v]), r2)
      | _ => none
    | none => none

end

/-- Python `json.loads`: decode one value and require only whitespace after it
    (otherwise `json.loads` raises an extra-data error). -/
def json_loads (t : String) : Option JValue :=
  let cs := t.data
  match decodeJValue (2 * cs.length + 4) cs with
  | some (v, rest) => if skipJsonWs rest = [] then some v else none
  | none => none

/-! ### Python `int(...)` and `str(...)` coercions -/

/-- Truncation toward zero, which is what Python `int(float)` performs. -/
def pyTrunc (q : Rat) : Int := if 0 ≤ q then q.floor else q.ceil

/-- Characters stripped by Python `str.strip()` (ASCII whitespace). -/
def pyWs (c : Char) : Bool :=
  c = ' ' || c = '\t' || c = '\n' || c = '\r' || c = Char.ofNat 11 || c = Char.ofNat 12

/-- Python `str.strip()` on a character list. -/
def pyStripChars (cs : List Char) : List Char :=
  ((cs.dropWhile pyWs).reverse.dropWhile pyWs).reverse

/-- Python `str.strip()`. -/
def pyStrip (s : String) : String := String.mk (pyStripChars s.data)

/-- Python `str.lower()` (ASCII). -/
def strLower (s : String) : String := String.mk (s.data.map Char.toLower)

/-- Bool prefix test on character lists. -/
def charsPrefix : List Char → List Char → Bool
  | [], _ => true
  | _ :: _, [] => false
  | p :: ps, c :: cs => (c = p) && charsPrefix ps cs

/-- The backtick character of a code fence. -/
def fenceChar : Char := Char.ofNat 96

/-- Digits of a base-10 integer literal body with Python underscore rules:
    an underscore must sit between two digits.  `acc` is `some` once at least
    one digit has been read. -/
def pyIntDigits : List Char → Option Nat → Option Nat
  | [], acc => acc
  | '_' :: c :: rest, some a =>
    if c.isDigit then pyIntDigits rest (some (a * 10 + digitVal c)) else none
  | '_' :: _, _ => none
  | c :: rest, acc =>
    if c.isDigit then pyIntDigits rest (some ((acc.getD 0) * 10 + digitVal c)) else none

/-- Python `int(s)` on a string: strip whitespace, optional sign, base-10
    digits (underscores allowed between digits). -/
def pyIntOfString (s : String) : Option Int :=
  let cs := (pyStrip s).data
  let (neg, cs1) :=
    match cs with
    | '-' :: r => (true, r)
    | '+' :: r => (false, r)
    | _ => (false, cs)
  match pyIntDigits cs1 none with
  | some n => some (if neg then -(n : Int) else (n : Int))
  | none => none

/-- Python `int(value)` on a decoded JSON value: fails on `None`, lists and
    dicts (TypeError), converts bools to 0/1, truncates floats toward zero and
    parses numeric strings. -/
def pyInt : JValue → Option Int
  | JValue.null => none
  | JValue.bool b => some (if b then 1 else 0)
  | JValue.num q _ => some (pyTrunc q)
  | JValue.str s => pyIntOfString s
  | JValue.arr _ => none
  | JValue.obj _ => none

/-- Decimal digits of the fractional part `r / d` (stops when the remainder is
    zero; fuel-bounded, which is exact whenever the denominator divides a power
    of ten, as it does for every value produced by `json_loads`). -/
def fracDigits : Nat → Nat → Nat → List Char
  | _, _, 0 => []
  | r, d, fuel + 1 =>
    if r = 0 ∨ d = 0 then []
    else
      let r10 := r * 10
      Char.ofNat ('0'.toNat + r10 / d) :: fracDigits (r10 % d) d fuel

/-- Python `str(...)` on a float value, modelled as the exact decimal expansion
    of the rational (`"2.5"`, `"2.0"`, ...). -/
def pyFloatStr (q : Rat) : String :=
  let sign := if q < 0 then "-" else ""
  let n := q.num.natAbs
  let d := q.den
  let ip := n / d
  let frac := fracDigits (n % d) d 64
  sign ++ toString ip ++ "." ++ (if frac = [] then "0" else String.mk frac)

/-! ### `src/old/llm_judging/bt/util/parsing.py` -/

namespace OldParsing

/-- `_strip_code_fences`: the anchored fence regex
    `^\s*BTICK(?:json)?\s*([\s\S]*?)\s*BTICK\s*$` (with `BTICK` a triple
    backtick, IGNORECASE) applied to `text.strip()`; on a match the captured
    body is stripped, else the original text is returned.  Because the input is
    pre-stripped and both the capture and the result are stripped again, the
    regex is equivalent to: opening fence at the start, closing fence at the
    very end, optional (case-insensitive) `json` tag after the opening fence. -/
def _strip_code_fences (text : String) : String :=
  let td := pyStripChars text.data
  if charsPrefix [fenceChar, fenceChar, fenceChar] td ∧ 6 ≤ td.length
      ∧ charsPrefix [fenceChar, fenceChar, fenceChar] td.reverse then
    let inner := (td.drop 3).dropLast.dropLast.dropLast
    let body :=
      if charsPrefix ['j', 's', 'o', 'n'] (inner.map Char.toLower) then inner.drop 4
      else inner
    String.mk (pyStripChars body)
  else text

/-- Characters of `s[a:b]` (Python slice with `0 ≤ a ≤ b`). -/
def pySlice (cs : List Char) (a b : Nat) : List Char :=
  (cs.drop a).take (b - a)

/-- `_find_first_json_object`: scan with a quote-and-escape-aware brace
    counter; whenever a balanced top-level `{...}` span closes, try to decode
    it, return it on success and keep scanning on failure.  Direct translation
    of the `for i, ch in enumerate(s)` loop; `i` is the index of the head of
    the remaining input inside the full character list `s`. -/
def findFirstAux (s : List Char) :
    List Char → Nat → Nat → Bool → Bool → Option Nat → Option String
  | [], _, _, _, _, _ => none
  | ch :: rest, i, depth, inStr, esc, start =>
    if inStr then
      if esc then findFirstAux s rest (i + 1) depth true false start
      else if ch = '\\' then findFirstAux s rest (i + 1) depth true true start
      else if ch = '"' then findFirstAux s rest (i + 1) depth false false start
      else findFirstAux s rest (i + 1) depth true false start
    else if ch = '"' then findFirstAux s rest (i + 1) depth true false start
    else if ch = '{' then
      findFirstAux s rest (i + 1) (depth + 1) false false
        (if depth = 0 then some i else start)
    else if ch = '}' then
      if 0 < depth then
        let depth2 := depth - 1
        if depth2 = 0 then
          match start with
          | some st =>
            let candidate := String.mk (pySlice s st (i + 1))
            if (json_loads candidate).isSome then some candidate
            else findFirstAux s rest (i + 1) depth2 false false none
          | none => findFirstAux s rest (i + 1) depth2 false false none
        else findFirstAux s rest (i + 1) depth2 false false start
      else findFirstAux s rest (i + 1) depth false false start
    else findFirstAux s rest (i + 1) depth inStr esc start

/-- `_find_first_json_object(s)`. -/
def _find_first_json_object (s : String) : Option String :=
  findFirstAux s.data s.data 0 0 false false none

/-- `extract_json_block` of the old parsing module: strip a code fence, then
    balanced scan. -/
def extract_json_block (text : String) : Option String :=
  _find_first_json_object (_strip_code_fences text)

/-- `_get_ci_key`: first value whose key matches case-insensitively.  A JSON
    `null` value decodes to Python `None`, which the caller cannot tell apart
    from an absent key, so it is returned as `none` here. -/
def _get_ci_key (fields : List (String × JValue)) (name : String) : Option JValue :=
  let n := strLower name
  match fields.find? (fun kv => strLower kv.1 = n) with
  | some (_, JValue.null) => none
  | some (_, v) => some v
  | none => none

/-- `_normalize_score`: Python `int(value)`, accepted only in `[0, 3]`. -/
def _normalize_score (v : JValue) : Option Int :=
  match pyInt v with
  | some iv => if 0 ≤ iv ∧ iv ≤ 3 then some iv else none
  | none => none

/-- `str(reason_val) if isinstance(reason_val, (str, int, float, bool)) else None`. -/
def coerceReason : Option JValue → Option String
  | some (JValue.str s) => some s
  | some (JValue.bool b) => some (if b then "True" else "False")
  | some (JValue.num q intLike) =>
      some (if intLike then toString (pyTrunc q) else pyFloatStr q)
  | _ => none

/-- Whitespace class `\s` of the `re` module (ASCII part). -/
def reWs (c : Char) : Bool :=
  c = ' ' || c = '\t' || c = '\n' || c = '\r' || c = Char.ofNat 11 || c = Char.ofNat 12

/-- Word character class `\w` (ASCII part), used for the `\b` boundaries. -/
def wordChar (c : Char) : Bool := c.isAlphanum || c = '_'

/-- Try to match `score\s*[:=]\s*([0-3])\b` (IGNORECASE) at the head of the
    input, the word `score` already consumed. -/
def matchScoreTail (cs : List Char) : Option Int :=
  match cs.dropWhile reWs with
  | c :: rest =>
    if c = ':' ∨ c = '=' then
      match rest.dropWhile reWs with
      | d :: rest2 =>
        if '0' ≤ d ∧ d ≤ '3' then
          match rest2 with
          | [] => some (digitVal d : Int)
          | c2 :: _ => if wordChar c2 then none else some (digitVal d : Int)
        else none
      | [] => none
    else none
  | [] => none

/-- Try to match the whole `\bscore\s*[:=]\s*([0-3])\b` pattern at the head of
    the input (the leading boundary is checked by the caller). -/
def matchScoreAt (cs : List Char) : Option Int :=
  match cs with
  | a :: b :: c :: d :: e :: rest =>
    if a.toLower = 's' ∧ b.toLower = 'c' ∧ c.toLower = 'o' ∧ d.toLower = 'r'
        ∧ e.toLower = 'e' then
      matchScoreTail rest
    else none
  | _ => none

/-- `re.search` for `_RE_SCORE_KV`: leftmost position at which the pattern
    matches; `prev` is the character before the current position, for the
    leading `\b`. -/
def searchScoreKv (prev : Option Char) (cs : List Char) : Option Int :=
  let boundaryOk :=
    match prev with
    | none => true
    | some p => ¬ wordChar p
  match (if boundaryOk then matchScoreAt cs else none) with
  | some d => some d
  | none =>
    match cs with
    | [] => none
    | c :: rest => searchScoreKv (some c) rest

/-- `parse_score_and_reason`: strict JSON path with case-insensitive keys, then
    the textual `score: [0-3]` fallback on the original text. -/
def parse_score_and_reason (text : String) : Option Int × Option String :=
  let fallback : Option Int × Option String :=
    match searchScoreKv none text.data with
    | some d => (some d, none)
    | none => (none, none)
  match extract_json_block text with
  | some block =>
    match json_loads block with
    | some (JValue.obj fields) =>
      match _get_ci_key fields "score" with
      | some sv =>
        match _normalize_score sv with
        | some sc => (some sc, coerceReason (_get_ci_key fields "reason"))
        | none => fallback
      | none => fallback
    | _ => fallback
  | none => fallback

end OldParsing

/-! ### `src/llm_judging/bt/parsing.py` -/

namespace Parsing

/-- Index of the first occurrence of `c` in `cs`. -/
def firstIdx (c : Char) : List Char → Option Nat
  | [] => none
  | x :: rest =>
    if x = c then some 0
    else
      match firstIdx c rest with
      | some i => some (i + 1)
      | none => none

/-- Index of the last occurrence of `c` in `cs`. -/
def lastIdx (c : Char) (cs : List Char) : Option Nat :=
  match firstIdx c cs.reverse with
  | some i => some (cs.length - 1 - i)
  | none => none

/-- `extract_json_block` of `bt/parsing.py`: the greedy regex
    `re.search(DOTALL)` over an open brace, anything, close brace spans from
    the first open brace to the last close brace after it; the span is then
    decoded in one shot and the whole function yields `None` if that single
    decode fails. -/
def extract_json_block (text : String) : Option String :=
  let cs := text.data
  match firstIdx '{' cs, lastIdx '}' cs with
  | some i, some j =>
    if i < j then
      let candidate := String.mk (OldParsing.pySlice cs i (j + 1))
      if (json_loads candidate).isSome then some candidate else none
    else none
  | _, _ => none

end Parsing

/-! ### `src/llm_judging/bt/util/helpers.py` -/

/-- `validate_range_and_limit`: raises `ValueError` on a non-positive limit,
    non-positive 1-based bounds, or `start > end`. -/
def validate_range_and_limit (start_qrel end_qrel limit_qrels : Option Int) :
    Except String Unit :=
  if (match limit_qrels with | some l => decide (l ≤ 0) | none => false) then
    Except.error "limit_qrels must be positive or None"
  else if (match start_qrel with | some s => decide (s ≤ 0) | none => false) then
    Except.error "start_qrel must be positive (1-based) if provided."
  else if (match end_qrel with | some e => decide (e ≤ 0) | none => false) then
    Except.error "end_qrel must be positive (1-based) if provided."
  else if (match start_qrel, end_qrel with
           | some s, some e => decide (e < s)
           | _, _ => false) then
    Except.error "start_qrel cannot be greater than end_qrel."
  else Except.ok ()

/-- The resolved processing window (`QrelWindow` dataclass). -/
structure QrelWindow where
  start_1b : Int
  end_1b : Int
  intended_count : Int
  processed_target : Int
  is_subset : Bool

/-- `compute_qrel_window`: resolve 1-based inclusive bounds and an optional
    limit against the dataset size.  Python truthiness makes a `None`, zero or
    negative start fall back to `1`, and a `None`, zero or negative end fall
    back to `total_available`. -/
def compute_qrel_window (total_available : Int)
    (start_qrel end_qrel limit_qrels : Option Int) : QrelWindow :=
  let s : Int := match start_qrel with | some v => if 0 < v then v else 1 | none => 1
  let e : Int :=
    match end_qrel with | some v => if 0 < v then v else total_available | none => total_available
  let s_eff := if 0 < total_available then max 1 (min s total_available) else 1
  let e_eff := if 0 < total_available then max 1 (min e total_available) else 1
  let intended := if 0 < total_available then max 0 (e_eff - s_eff + 1) else 0
  let processed := match limit_qrels with | some l => min intended l | none => intended
  { start_1b := s_eff
    end_1b := e_eff
    intended_count := intended
    processed_target := processed
    is_subset := decide (processed < total_available) }

/-- `ensure_official_guard`: reject an official run over a subset. -/
def ensure_official_guard (official is_subset : Bool) : Except String Unit :=
  if official ∧ is_subset then
    Except.error "Cannot mark run official when processing only a subset of qrels (range and/or limit)."
  else Except.ok ()

/-! ### `src/llm_judging/bt/db.py` -/

/-- The run-key alphabet (`ALPHABET` in `bt/db.py`): letters without
    I, L, O, U plus digits 2-9. -/
def ALPHABET : String := "ABCDEFGHJKMNPQRSTVWXYZ23456789"

/-- `gen_run_key`: one alphabet character per position, each drawn by
    `secrets.choice`; the random draws are the explicit argument `pick`. -/
def gen_run_key (pick : Nat → Fin ALPHABET.length) (n : Nat := 12) : String :=
  String.mk ((List.range n).map (fun i => ALPHABET.data.get (pick i)))

/-- `fetch_qrels`: compute `OFFSET` and `LIMIT` from the 1-based inclusive
    window and the hard limit, then return the rows of the fixed
    `(query_id, doc_id)` total order (given here as the ordered list `rows`)
    with the offset dropped and the limit taken, exactly as the SQL
    `ORDER BY ... LIMIT ... OFFSET ...` does. -/
def fetch_qrels {α : Type} (rows : List α) (start end_q limit : Option Int) : List α :=
  let offset : Int :=
    match start with | some s => if 0 < s then max 0 (s - 1) else 0 | none => 0
  let window_count : Option Int :=
    match end_q with
    | some e =>
      if 0 < e then
        some (match start with
              | some s => if 0 < s then max 0 (e - s + 1) else e
              | none => e)
      else none
    | none => none
  let final_limit : Option Int :=
    match window_count, limit with
    | some w, some l => some (min w l)
    | some w, none => some w
    | none, some l => some l
    | none, none => none
  let dropped := rows.drop offset.toNat
  match final_limit with
  | some fl => dropped.take fl.toNat
  | none => dropped

/-- `finalize_run`'s aggregate: percentage of predictions with a null score,
    with the explicit zero guard (`if total and total > 0 else 0.0`). -/
def finalize_pct (preds : List (Option Int)) : Rat :=
  let total : Rat := (preds.length : Rat)
  let invalid : Rat := ((preds.filter (fun p => p.isNone)).length : Rat)
  if 0 < total then invalid / total * 100 else 0

/-- The mutable columns of one `llm_runs` row that `finalize_run` updates. -/
structure RunRecord where
  finished : Bool
  finished_at : Option Int
  invalid_pct : Option Rat

/-- `finalize_run`: compute the invalid percentage over this run's predictions
    and mark the run finished at the current timestamp `now`; returns the
    updated row together with the percentage (the Python function returns
    `invalid_pct`). -/
def finalize_run (preds : List (Option Int)) (now : Int) (r : RunRecord) :
    RunRecord × Rat :=
  let pct := finalize_pct preds
  ({ r with finished := true, finished_at := some now, invalid_pct := some pct }, pct)

/-! ### `src/llm_judging/bt/call.py` -/

/-- `last_raw or` empty dict: the raw payloads are dict-typed, and an empty
    dict is falsy, so the expression is the unset-default on `None` and the
    identity otherwise. -/
def rawOrEmpty : Option JValue → JValue
  | none => JValue.obj []
  | some w => w

/-- The `for i in range(1, attempts + 1)` body of `call_with_retry`.
    `remaining` counts the iterations still allowed (`remaining = 0` inside the
    body means `i == attempts`); `idx` is the number of earlier calls, so the
    stateful `fn()` is modelled as a function of how often it was called. -/
def callLoop (fn : Nat → Option Int × Option String × JValue × Int) (enabled : Bool) :
    Nat → Nat → Int → Option String → Option JValue →
    Option Int × Option String × JValue × Int
  | 0, _, total, lastReason, lastRaw => (none, lastReason, rawOrEmpty lastRaw, total)
  | remaining + 1, idx, total, _, _ =>
    let r := fn idx
    let pred := r.1
    let reason := r.2.1
    let raw := r.2.2.1
    let ms := r.2.2.2
    let total2 := total + ms
    if pred.isSome then (pred, reason, raw, total2)
    else if ¬ enabled ∨ remaining = 0 then (none, reason, rawOrEmpty (some raw), total2)
    else callLoop fn enabled remaining (idx + 1) total2 reason (some raw)

/-- `call_with_retry(fn, attempts, enabled, backoff_ms)`: clamp `attempts` to
    at least one, call `fn` up to that many times, accumulate every attempt's
    elapsed ms, return immediately on the first non-null score and otherwise
    the last reason and raw payload with a null score.  `backoff_ms` only
    drives the sleep between attempts and does not affect the result. -/
def call_with_retry (fn : Nat → Option Int × Option String × JValue × Int)
    (attempts : Int) (enabled : Bool) (backoff_ms : Int) :
    Option Int × Option String × JValue × Int :=
  let _ := backoff_ms
  callLoop fn enabled (max 1 attempts).toNat 0 0 none none

/-! ### `src/llm_judging/bt/pipeline.py` (`run_once`), as an event trace

The database side effects of one run are recorded as a list of events; the
provider client is the opaque `judge` function, which either returns the
retry-orchestrated quadruple or raises (`JudgeOutcome.raises` models any
exception escaping `client.judge`). -/

/-- The configuration fields `run_once` reads (`Settings` in `bt/config.py`,
    plus the `start_qrel` / `end_qrel` window of the configuration surface). -/
structure Settings where
  official : Bool
  start_qrel : Option Int
  end_qrel : Option Int
  limit_qrels : Option Int
  commit_every : Int
  max_text_chars : Option Nat
  reasoning_enabled : Bool

/-- One joined qrel row as fetched by `fetch_qrels`. -/
structure Row where
  query_id : String
  query_text : String
  doc_id : String
  doc_text : String
  gold_score : Int

/-- Modelled from the spec: the two prompt templates of the missing
    `bt/prompts.py` (`PROMPT_TMPL`, `PROMPT_TMPL_WITH_REASON`); the spec only
    requires them to be fixed texts that the deterministic prompt builder
    combines with the query and document. -/
def PROMPT_TMPL : String := "prompt-template-plain"

/-- Modelled from the spec: the reasoning-enabled prompt template. -/
def PROMPT_TMPL_WITH_REASON : String := "prompt-template-with-reason"

/-- Modelled from the spec: `build_prompt` of the missing `bt/prompts.py`
    builds a deterministic prompt from the query text and the document text
    under the chosen template. -/
def build_prompt (query_text doc_text template : String) : String :=
  template ++ "|" ++ query_text ++ "|" ++ doc_text

/-- `choose_prompt_template` from `bt/util/helpers.py`. -/
def choose_prompt_template (reasoning_enabled : Bool)
    (tmpl_with_reason tmpl_plain : String) : String :=
  if reasoning_enabled then tmpl_with_reason else tmpl_plain

/-- `_truncate(text, limit)`: Python `text[:limit]` when a limit is set and the
    text is longer. -/
def _truncate (text : String) (limit : Option Nat) : String :=
  match limit with
  | none => text
  | some l => if text.length ≤ l then text else String.mk (text.data.take l)

/-- Outcome of one `client.judge(prompt)` call at the pipeline boundary. -/
inductive JudgeOutcome where
  | ok (pred : Option Int) (reason : Option String) (raw : JValue) (ms : Int)
  | raises

/-- What the loop body computes for one item before inserting it. -/
structure ItemResult where
  pred : Option Int
  reason : Option String
  raw : JValue
  ms : Int
  is_correct : Option Bool

/-- The diagnostic raw payload written when `client.judge` raises:
    `\x7b"error": "exception during LLM call"\x7d`. -/
def exceptionRaw : JValue :=
  JValue.obj [("error", JValue.str "exception during LLM call")]

/-- The prompt built for one row: stripped query text, stripped and truncated
    document text, the configured template. -/
def promptFor (cfg : Settings) (row : Row) : String :=
  build_prompt (pyStrip row.query_text)
    (_truncate (pyStrip row.doc_text) cfg.max_text_chars)
    (choose_prompt_template cfg.reasoning_enabled PROMPT_TMPL_WITH_REASON PROMPT_TMPL)

/-- One iteration of the item loop: invoke the provider inside `try/except`,
    turning any exception into a null-score result with the diagnostic raw
    payload and zero elapsed ms, then derive `is_correct` (null iff the
    prediction is null). -/
def processItem (cfg : Settings) (judge : String → JudgeOutcome) (row : Row) :
    ItemResult :=
  match judge (promptFor cfg row) with
  | JudgeOutcome.ok p r w m =>
    { pred := p, reason := r, raw := w, ms := m
      is_correct := match p with | some v => some (decide (v = row.gold_score)) | none => none }
  | JudgeOutcome.raises =>
    { pred := none, reason := none, raw := exceptionRaw, ms := 0, is_correct := none }

/-- Database-effect events of one run, in order. -/
inductive Event where
  | ensureSchema
  | startRun (run_key : String) (official : Bool)
  | insertPrediction (idx : Nat) (query_id doc_id : String) (gold : Int)
      (pred : Option Int) (reason : Option String) (is_correct : Option Bool)
      (ms : Int) (raw : JValue)
  | commit
  | finalizeRun (pct : Rat)

/-- The `for i, row in enumerate(items, start=1)` loop: insert one prediction
    per item and commit every `commit_every` items (Python truthiness: no batch
    commits when `commit_every` is zero). -/
def loopEvents (cfg : Settings) (judge : String → JudgeOutcome) :
    List Row → Nat → List Event
  | [], _ => []
  | row :: rest, i =>
    let res := processItem cfg judge row
    Event.insertPrediction i row.query_id row.doc_id row.gold_score res.pred res.reason
        res.is_correct res.ms res.raw
      :: ((if cfg.commit_every ≠ 0 ∧ (i : Int) % cfg.commit_every = 0 then [Event.commit] else [])
          ++ loopEvents cfg judge rest (i + 1))

/-- `run_once`: validate the window request, compute the window (the source
    computes it for the log banner and the run record but never applies
    `ensure_official_guard` to it), persist the run, fetch the items, process
    them, and finalize.  A `ValueError` from validation propagates out as
    `Except.error`; every provider failure is absorbed inside the loop. -/
def run_once (cfg : Settings) (rows : List Row) (judge : String → JudgeOutcome)
    (run_key : String) : Except String (List Event) :=
  let total : Int := (rows.length : Int)
  match validate_range_and_limit cfg.start_qrel cfg.end_qrel cfg.limit_qrels with
  | Except.error m => Except.error m
  | Except.ok _ =>
    let _window := compute_qrel_window total cfg.start_qrel cfg.end_qrel cfg.limit_qrels
    let pre := [Event.ensureSchema, Event.startRun run_key cfg.official]
    let items := fetch_qrels rows cfg.start_qrel cfg.end_qrel cfg.limit_qrels
    if items.length = 0 then
      Except.ok (pre ++ [Event.finalizeRun (finalize_pct [])])
    else
      let body := loopEvents cfg judge items 1
      let preds := items.map (fun r => (processItem cfg judge r).pred)
      Except.ok (pre ++ body ++ [Event.commit, Event.finalizeRun (finalize_pct preds)])

/-- Recognize prediction-insert events. -/
def isInsert : Event → Bool
  | Event.insertPrediction _ _ _ _ _ _ _ _ _ => true
  | _ => false

/-- Recognize run-creation events. -/
def isStartRun : Event → Bool
  | Event.startRun _ _ => true
  | _ => false

/-! ### Concrete instances used in the claim theorems -/

/-- A configuration flagged official whose limit makes the window a strict
    subset of a two-row dataset. -/
def officialSubsetCfg : Settings :=
  { official := true, start_qrel := none, end_qrel := none, limit_qrels := some 1,
    commit_every := 5, max_text_chars := none, reasoning_enabled := false }

/-- A two-row dataset in `(query_id, doc_id)` order. -/
def twoRows : List Row :=
  [{ query_id := "q1", query_text := "what", doc_id := "d1", doc_text := "doc one",
     gold_score := 1 },
   { query_id := "q1", query_text := "what", doc_id := "d2", doc_text := "doc two",
     gold_score := 0 }]

/-- A provider client that always answers with score 1. -/
def alwaysOkJudge : String → JudgeOutcome :=
  fun _ => JudgeOutcome.ok (some 1) (some "r") (JValue.obj []) 5

/-- A provider client whose call always raises. -/
def alwaysRaisesJudge : String → JudgeOutcome := fun _ => JudgeOutcome.raises

/-- A plain valid configuration (no window, no limit, not official). -/
def plainCfg : Settings :=
  { official := false, start_qrel := none, end_qrel := none, limit_qrels := none,
    commit_every := 2, max_text_chars := none, reasoning_enabled := false }

/-- A single qrel row. -/
def oneRow : Row :=
  { query_id := "q9", query_text := "why", doc_id := "d9", doc_text := "text",
    gold_score := 2 }

end BT

namespace BT

/-! ## Theorems -/

attribute [local semireducible] Rat.mul Rat.add Rat.sub Rat.inv

/-- Unfolding of a passing validation into its four constraints. -/
theorem validate_ok_iff (s e l : Option Int) :
    validate_range_and_limit s e l = Except.ok () ↔
      (∀ lv, l = some lv → 0 < lv) ∧ (∀ sv, s = some sv → 0 < sv)
      ∧ (∀ ev, e = some ev → 0 < ev)
      ∧ (∀ sv ev, s = some sv → e = some ev → sv ≤ ev) := by
  unfold validate_range_and_limit
  rcases s with _ | sv <;> rcases e with _ | ev <;> rcases l with _ | lv <;>
    simp <;> split_ifs <;> simp_all

/-- The item loop records exactly one prediction insert per item, whatever the
    provider does. -/
theorem loopEvents_insert_count (cfg : Settings) (judge : String → JudgeOutcome) :
    ∀ (items : List Row) (i : Nat),
      ((loopEvents cfg judge items i).filter isInsert).length = items.length := by
  intro items
  induction items with
  | nil => intro i; rfl
  | cons row rest ih =>
    intro i
    simp only [loopEvents]
    by_cases hc : cfg.commit_every ≠ 0 ∧ (i : Int) % cfg.commit_every = 0
    · simp [hc, isInsert, List.filter_cons, List.filter_append, ih]
    · simp [hc, isInsert, List.filter_cons, List.filter_append, ih]
      intro a _ _ ha
      subst ha
      rfl

end BT

namespace BT

attribute [local semireducible] Rat.mul Rat.add Rat.sub Rat.inv

/-- C1: the spec requires an official configuration whose resolved window is a
    strict subset to be rejected with a `ValidationError` before any run record
    exists, and `ensure_official_guard` implements exactly that check; but
    `run_once` never invokes the guard, so such a configuration sails through:
    the run record is created and predictions are inserted. -/
theorem run_once_skips_official_guard :
    officialSubsetCfg.official = true
    ∧ (compute_qrel_window ((twoRows.length : Nat) : Int) officialSubsetCfg.start_qrel
        officialSubsetCfg.end_qrel officialSubsetCfg.limit_qrels).is_subset = true
    ∧ (ensure_official_guard true true).isOk = false
    ∧ run_once officialSubsetCfg twoRows alwaysOkJudge "KEY"
        = Except.ok
            [Event.ensureSchema, Event.startRun "KEY" true,
             Event.insertPrediction 1 "q1" "d1" 1 (some 1) (some "r") (some true) 5
               (JValue.obj []),
             Event.commit, Event.finalizeRun 0] :=
  ⟨rfl, rfl, rfl, rfl⟩

/-- C2: the live `extract_json_block` spans greedily from the first open brace
    to the last close brace and gives up entirely when that single span fails
    to decode; the spec and the function's own docstring require the first
    decodable balanced span (as the balanced scanner of the old module
    returns), so on `OBRACE"score": 2CBRACE CBRACE` the live code returns
    `None` although a valid first span exists. -/
theorem extract_json_block_greedy_misses_first_span :
    Parsing.extract_json_block "\x7b\"score\": 2\x7d \x7d" = none
    ∧ OldParsing._find_first_json_object "\x7b\"score\": 2\x7d \x7d"
        = some "\x7b\"score\": 2\x7d"
    ∧ (json_loads "\x7b\"score\": 2\x7d").isSome = true :=
  ⟨rfl, rfl, rfl⟩

/-- C10: `_normalize_score` goes through general Python `int(...)` coercion, so
    JSON booleans and floats whose truncation lands in `[0, 3]` are accepted as
    scores: `true` gives 1, `false` gives 0, `2.9` truncates to 2. -/
theorem normalize_score_general_coercion :
    OldParsing.parse_score_and_reason "\x7b\"score\": true\x7d" = (some 1, none)
    ∧ OldParsing.parse_score_and_reason "\x7b\"score\": false\x7d" = (some 0, none)
    ∧ OldParsing.parse_score_and_reason "\x7b\"score\": 2.9\x7d" = (some 2, none) :=
  ⟨rfl, rfl, rfl⟩

/-- C5 counterexample: the run-key alphabet has 30 symbols, not the 32 the
    claim states (Crockford Base32 minus the digits 0 and 1 leaves 30). -/
theorem run_key_alphabet_is_not_32_symbols :
    ALPHABET.length = 30 ∧ ¬ ALPHABET.length = 32 := by
  decide

/-- C5 (amended): every generated run key has exactly 12 characters, each
    drawn from the fixed 30-symbol alphabet, which contains only characters in
    `[A-Z2-9]` and none of I, L, O, U, 0, 1. -/
theorem gen_run_key_spec (pick : Nat → Fin ALPHABET.length) :
    (gen_run_key pick 12).length = 12
    ∧ ((gen_run_key pick 12).data.all (fun c => ALPHABET.data.contains c)) = true
    ∧ ALPHABET.length = 30
    ∧ (ALPHABET.data.all (fun c =>
        (('A' ≤ c && c ≤ 'Z') || ('2' ≤ c && c ≤ '9'))
        && !(c == 'I' || c == 'L' || c == 'O' || c == 'U' || c == '0' || c == '1'))) = true := by
  refine ⟨?_, ?_, by decide, by decide⟩
  · show ((List.range 12).map (fun i => ALPHABET.data.get (pick i))).length = 12
    simp
  · show (((List.range 12).map (fun i => ALPHABET.data.get (pick i))).all
      (fun c => ALPHABET.data.contains c)) = true
    simp only [List.all_eq_true]
    intro c hc
    simp only [List.mem_map, List.mem_range] at hc
    obtain ⟨i, -, rfl⟩ := hc
    exact List.elem_iff.mpr (List.get_mem _ _ _)

/-- C6 counterexample: with `total_available = 0` and a negative limit the
    window reports `processed_target = -1` and `is_subset = true`, because
    `min(intended, limit)` is taken against the raw limit; the zero-total
    clause of the claim therefore does not hold for every limit. -/
theorem compute_qrel_window_zero_total_negative_limit :
    ¬ ((compute_qrel_window 0 none none (some (-1))).processed_target = 0
       ∧ (compute_qrel_window 0 none none (some (-1))).is_subset = false) := by
  decide

/-- C6 (amended): with a nonnegative limit (validation in fact forces a
    positive one), an empty dataset resolves to the empty non-subset window;
    for `1 ≤ start ≤ end ≤ total` the intended count is `end - start + 1`; and
    a set limit always caps the processed target at `min(intended, limit)`. -/
theorem compute_qrel_window_spec :
    (∀ s e l : Option Int, (∀ lv, l = some lv → 0 ≤ lv) →
      (compute_qrel_window 0 s e l).intended_count = 0
      ∧ (compute_qrel_window 0 s e l).processed_target = 0
      ∧ (compute_qrel_window 0 s e l).is_subset = false)
    ∧ (∀ (total sv ev : Int) (l : Option Int), 1 ≤ sv → sv ≤ ev → ev ≤ total →
      (compute_qrel_window total (some sv) (some ev) l).intended_count = ev - sv + 1)
    ∧ (∀ (total : Int) (s e : Option Int) (lv : Int),
      (compute_qrel_window total s e (some lv)).processed_target
        = min (compute_qrel_window total s e (some lv)).intended_count lv) := by
  refine ⟨?_, ?_, ?_⟩
  · intro s e l hl
    rcases l with _ | lv
    · simp [compute_qrel_window]
    · have h0 : 0 ≤ lv := hl lv rfl
      have hmin : min (0 : Int) lv = 0 := by omega
      simp [compute_qrel_window, hmin]
  · intro total sv ev l h1 h2 h3
    have h0 : 0 < total := by omega
    simp only [compute_qrel_window, if_pos h0, if_pos (show 0 < sv by omega),
      if_pos (show 0 < ev by omega)]
    omega
  · intro total s e lv
    simp [compute_qrel_window]

/-- C6 witness: the amended window properties at concrete inputs. -/
theorem compute_qrel_window_spec_witness :
    (compute_qrel_window 0 none none (some 3)).processed_target = 0
    ∧ (compute_qrel_window 10 (some 2) (some 7) none).intended_count = 6
    ∧ (compute_qrel_window 10 (some 2) (some 7) (some 4)).processed_target
        = min (compute_qrel_window 10 (some 2) (some 7) (some 4)).intended_count 4 := by
  refine ⟨(compute_qrel_window_spec.1 none none (some 3) ?_).2.1, ?_,
    compute_qrel_window_spec.2.2 10 (some 2) (some 7) 4⟩
  · intro lv h
    cases h
    decide
  · have h := compute_qrel_window_spec.2.1 10 2 7 none (by decide) (by decide) (by decide)
    omega

/-- C4: `finalize_run` marks the run finished at the given timestamp and
    stores the invalid percentage, which is 100 times the share of null-score
    predictions, zero for an empty run; ten predictions with three null scores
    finalize at 30. -/
theorem finalize_run_invalid_pct :
    (∀ (preds : List (Option Int)) (now : Int) (r : RunRecord),
      (finalize_run preds now r).1.finished = true
      ∧ (finalize_run preds now r).1.finished_at = some now
      ∧ (finalize_run preds now r).1.invalid_pct = some (finalize_pct preds)
      ∧ (finalize_run preds now r).2 = finalize_pct preds)
    ∧ (∀ preds : List (Option Int), 0 < preds.length →
      finalize_pct preds
        = 100 * (((preds.filter (fun p => p.isNone)).length : Rat) / (preds.length : Rat)))
    ∧ finalize_pct [] = 0
    ∧ finalize_pct (List.replicate 7 (some 1) ++ List.replicate 3 none) = 30 := by
  refine ⟨?_, ?_, rfl, rfl⟩
  · intro preds now r
    exact ⟨rfl, rfl, rfl, rfl⟩
  · intro preds h
    have hpos : (0 : Rat) < (preds.length : Rat) := by exact_mod_cast h
    simp only [finalize_pct, if_pos hpos]
    ring

/-- C4 witness: the percentage formula applied to the ten-prediction run with
    three null scores. -/
theorem finalize_run_invalid_pct_witness :
    0 < (List.replicate 7 (some (1 : Int)) ++ List.replicate 3 none).length
    ∧ finalize_pct (List.replicate 7 (some (1 : Int)) ++ List.replicate 3 none)
        = 100 * ((((List.replicate 7 (some (1 : Int)) ++ List.replicate 3 none).filter
              (fun p : Option Int => p.isNone)).length : Rat)
            / ((List.replicate 7 (some (1 : Int)) ++ List.replicate 3 none).length : Rat)) :=
  ⟨by decide,
   finalize_run_invalid_pct.2.1 (List.replicate 7 (some 1) ++ List.replicate 3 none)
     (by decide)⟩

end BT

namespace BT

attribute [local semireducible] Rat.mul Rat.add Rat.sub Rat.inv

/-- C7: `call_with_retry` accumulates every attempt's elapsed ms and returns
    the first non-null score immediately with the running total: a stub that
    fails twice and then succeeds, with retries enabled and at least three
    attempts allowed, yields the third attempt's `(score, reason, raw)` with
    `total_ms` the sum of all three attempts' times. -/
theorem call_with_retry_fail_fail_succeed
    (fn : Nat → Option Int × Option String × JValue × Int)
    (attempts backoff_ms : Int) (s : Int) (r0 r1 r2 : Option String)
    (w0 w1 w2 : JValue) (m0 m1 m2 : Int)
    (h0 : fn 0 = (none, r0, w0, m0)) (h1 : fn 1 = (none, r1, w1, m1))
    (h2 : fn 2 = (some s, r2, w2, m2)) (ha : 3 ≤ attempts) :
    call_with_retry fn attempts true backoff_ms = (some s, r2, w2, m0 + m1 + m2) := by
  obtain ⟨k, hk⟩ : ∃ k, (max 1 attempts).toNat = k + 3 :=
    ⟨(max 1 attempts).toNat - 3, by omega⟩
  unfold call_with_retry
  rw [hk]
  show callLoop fn true (k + 2 + 1) 0 0 none none = _
  rw [callLoop, h0]
  simp only [Option.isSome_none, Bool.false_eq_true, if_false, not_true, false_or]
  rw [if_neg (by omega : ¬ (k + 2 = 0))]
  show callLoop fn true (k + 1 + 1) 1 (0 + m0) r0 (some w0) = _
  rw [callLoop, h1]
  simp only [Option.isSome_none, Bool.false_eq_true, if_false, not_true, false_or]
  rw [if_neg (by omega : ¬ (k + 1 = 0))]
  show callLoop fn true (k + 1) 2 (0 + m0 + m1) r1 (some w1) = _
  rw [callLoop, h2]
  simp only [Option.isSome_some, if_true]
  simp [Int.add_assoc]

/-- C7 witness: the retry loop on a concrete stub that fails twice then
    succeeds, with three attempts. -/
theorem call_with_retry_fail_fail_succeed_witness :
    call_with_retry
      (fun i => if i = 0 then (none, none, JValue.obj [], 5)
        else if i = 1 then (none, some "a", JValue.null, 7)
        else (some 2, some "ok", JValue.bool true, 11)) 3 true 50
      = (some 2, some "ok", JValue.bool true, 5 + 7 + 11) :=
  call_with_retry_fail_fail_succeed _ 3 50 2 none (some "a") (some "ok")
    (JValue.obj []) JValue.null (JValue.bool true) 5 7 11 rfl rfl rfl (by decide)

end BT

namespace BT

attribute [local semireducible] Rat.mul Rat.add Rat.sub Rat.inv

/-- C8: a decoded object's score is accepted exactly when Python integer
    coercion lands in the closed range `[0, 3]` (with case-insensitive key
    lookup): the round trip holds for every score in `э0..3э`, and
    `OBRACE"score": 7CBRACE` parses to `(null, null)` because an out-of-range
    value is a parse failure. -/
theorem parse_score_accepts_iff_in_range :
    (∀ s : Int, 0 ≤ s → s ≤ 3 →
      OldParsing.parse_score_and_reason
        ("\x7b\"score\": " ++ toString s ++ ", \"reason\": \"ok\"\x7d")
        = (some s, some "ok"))
    ∧ OldParsing.parse_score_and_reason "\x7b\"score\": 7\x7d" = (none, none)
    ∧ (∀ (v : JValue) (i : Int),
        OldParsing._normalize_score v = some i ↔ (pyInt v = some i ∧ 0 ≤ i ∧ i ≤ 3)) := by
  refine ⟨?_, rfl, ?_⟩
  · intro s h0 h3
    have hc : s = 0 ∨ s = 1 ∨ s = 2 ∨ s = 3 := by omega
    rcases hc with rfl | rfl | rfl | rfl <;> rfl
  · intro v i
    unfold OldParsing._normalize_score
    cases hp : pyInt v with
    | none => simp
    | some iv =>
      show (if 0 ≤ iv ∧ iv ≤ 3 then some iv else none) = some i
        ↔ some iv = some i ∧ 0 ≤ i ∧ i ≤ 3
      by_cases hin : 0 ≤ iv ∧ iv ≤ 3
      · rw [if_pos hin]
        constructor
        · intro h
          obtain rfl := Option.some.inj h
          exact ⟨rfl, hin.1, hin.2⟩
        · exact fun h => h.1
      · rw [if_neg hin]
        constructor
        · intro h
          simp at h
        · rintro ⟨h, h1, h2⟩
          obtain rfl := Option.some.inj h
          exact absurd ⟨h1, h2⟩ hin

/-- C8 witness: the round trip at score 2. -/
theorem parse_score_accepts_iff_in_range_witness :
    OldParsing.parse_score_and_reason
      ("\x7b\"score\": " ++ toString (2 : Int) ++ ", \"reason\": \"ok\"\x7d")
      = (some 2, some "ok") :=
  parse_score_accepts_iff_in_range.1 2 (by decide) (by decide)

/-- C9: a provider call that raises is caught at item granularity and becomes
    a recorded null-score prediction with the diagnostic raw payload, and the
    loop records exactly one insert per fetched item, so a single item's
    provider failure never aborts the run: under any judge, a validated
    configuration always completes with one insert per item. -/
theorem provider_failure_isolated (cfg : Settings) (judge : String → JudgeOutcome)
    (rows : List Row) (run_key : String) :
    (∀ row : Row, judge (promptFor cfg row) = JudgeOutcome.raises →
      processItem cfg judge row
        = { pred := none, reason := none, raw := exceptionRaw, ms := 0, is_correct := none })
    ∧ (validate_range_and_limit cfg.start_qrel cfg.end_qrel cfg.limit_qrels = Except.ok () →
      ∃ tr, run_once cfg rows judge run_key = Except.ok tr
        ∧ (tr.filter isInsert).length
            = (fetch_qrels rows cfg.start_qrel cfg.end_qrel cfg.limit_qrels).length) := by
  constructor
  · intro row h
    simp [processItem, h]
  · intro hv
    unfold run_once
    rw [hv]
    by_cases h0 : (fetch_qrels rows cfg.start_qrel cfg.end_qrel cfg.limit_qrels).length = 0
    · refine ⟨_, by rw [if_pos h0], ?_⟩
      simp [isInsert, h0]
    · refine ⟨_, by rw [if_neg h0], ?_⟩
      simp [List.filter_append, isInsert, loopEvents_insert_count]

/-- C9 witness: a one-row run under an always-raising provider completes with
    the diagnostic null prediction recorded. -/
theorem provider_failure_isolated_witness :
    processItem plainCfg alwaysRaisesJudge oneRow
      = { pred := none, reason := none, raw := exceptionRaw, ms := 0, is_correct := none }
    ∧ ∃ tr, run_once plainCfg [oneRow] alwaysRaisesJudge "K" = Except.ok tr
        ∧ (tr.filter isInsert).length
            = (fetch_qrels [oneRow] plainCfg.start_qrel plainCfg.end_qrel
                plainCfg.limit_qrels).length :=
  ⟨(provider_failure_isolated plainCfg alwaysRaisesJudge [oneRow] "K").1 oneRow rfl,
   (provider_failure_isolated plainCfg alwaysRaisesJudge [oneRow] "K").2 rfl⟩

end BT

namespace BT

/-- Two take-of-drop windows over the same list agree when the drop counts
    agree and the take counts agree up to clamping at the remaining length. -/
theorem drop_take_congr {α : Type} (rows : List α) (d1 t1 d2 t2 : Nat)
    (hd : d1 = d2) (ht : min t1 (rows.length - d1) = min t2 (rows.length - d2)) :
    (rows.drop d1).take t1 = (rows.drop d2).take t2 := by
  subst hd
  rw [List.take_eq_take]
  simpa [List.length_drop] using ht

/-- C3 counterexample: a requested start beyond the dataset is accepted by
    validation, but `fetch_qrels` then returns no rows while
    `compute_qrel_window` clamps the start and still reports
    `processed_target = 1`: over ten rows with `start = 20` the fetched count
    is 0, not the window's processed target. -/
theorem fetch_qrels_window_mismatch :
    validate_range_and_limit (some 20) none none = Except.ok ()
    ∧ ¬ (((fetch_qrels (List.range 10) (some 20) none none).length : Int)
        = (compute_qrel_window ((List.range 10).length : Int)
            (some 20) none none).processed_target) := by
  exact ⟨rfl, by decide⟩

end BT

namespace BT

/-- C3 (amended): for windows accepted by validation whose requested start,
    when provided, does not exceed the dataset size (or the dataset is empty),
    `fetch_qrels` returns exactly the window resolved by
    `compute_qrel_window`: the contiguous run of the fixed total order starting
    at position `start_1b`, of length `processed_target`.  Without the extra
    requirement the two disagree: see the counterexample, where a start beyond
    the dataset fetches zero rows while the window reports one. -/
theorem fetch_qrels_matches_window {α : Type} (rows : List α) (s e l : Option Int)
    (hv : validate_range_and_limit s e l = Except.ok ())
    (hs : ∀ sv, s = some sv → sv ≤ (rows.length : Int) ∨ rows.length = 0) :
    fetch_qrels rows s e l
      = (rows.drop ((compute_qrel_window (rows.length : Int) s e l).start_1b - 1).toNat).take
          (compute_qrel_window (rows.length : Int) s e l).processed_target.toNat
    ∧ ((fetch_qrels rows s e l).length : Int)
        = (compute_qrel_window (rows.length : Int) s e l).processed_target := by
  obtain ⟨hl, hsp, hep, hse⟩ := (validate_ok_iff s e l).mp hv
  by_cases hT : rows.length = 0
  · obtain rfl : rows = [] := List.length_eq_zero.mp hT
    have hfetch : fetch_qrels ([] : List α) s e l = [] := by
      simp only [fetch_qrels]
      split <;> simp
    rw [hfetch]
    refine ⟨by simp, ?_⟩
    rcases l with _ | lv
    · simp [compute_qrel_window]
    · have hlv := hl lv rfl
      simp [compute_qrel_window]
      omega
  · have h0T : (0 : Int) < (rows.length : Int) := by
      have := Nat.pos_of_ne_zero hT
      exact_mod_cast this
    rcases s with _ | sv <;> rcases e with _ | ev <;> rcases l with _ | lv
    · -- s none, e none, l none
      simp only [fetch_qrels, compute_qrel_window, if_pos h0T]
      refine ⟨?_, ?_⟩
      · rw [← List.take_length (rows.drop (Int.toNat 0)), List.length_drop]
        exact drop_take_congr rows _ _ _ _ (by omega) (by omega)
      · rw [List.length_drop]
        omega
    · -- s none, e none, l some
      have hlv := hl lv rfl
      simp only [fetch_qrels, compute_qrel_window, if_pos h0T]
      refine ⟨drop_take_congr rows _ _ _ _ (by omega) (by omega), ?_⟩
      rw [List.length_take, List.length_drop]
      omega
    · -- s none, e some, l none
      have hev := hep ev rfl
      simp only [fetch_qrels, compute_qrel_window, if_pos h0T, if_pos hev]
      refine ⟨drop_take_congr rows _ _ _ _ (by omega) (by omega), ?_⟩
      rw [List.length_take, List.length_drop]
      omega
    · -- s none, e some, l some
      have hev := hep ev rfl
      have hlv := hl lv rfl
      simp only [fetch_qrels, compute_qrel_window, if_pos h0T, if_pos hev]
      refine ⟨drop_take_congr rows _ _ _ _ (by omega) (by omega), ?_⟩
      rw [List.length_take, List.length_drop]
      omega
    · -- s some, e none, l none
      have hsv := hsp sv rfl
      have hsT := (hs sv rfl).resolve_right hT
      simp only [fetch_qrels, compute_qrel_window, if_pos h0T, if_pos hsv]
      refine ⟨?_, ?_⟩
      · rw [← List.take_length (rows.drop (0 ⊔ (sv - 1)).toNat), List.length_drop]
        exact drop_take_congr rows _ _ _ _ (by omega) (by omega)
      · rw [List.length_drop]
        omega
    · -- s some, e none, l some
      have hsv := hsp sv rfl
      have hsT := (hs sv rfl).resolve_right hT
      have hlv := hl lv rfl
      simp only [fetch_qrels, compute_qrel_window, if_pos h0T, if_pos hsv]
      refine ⟨drop_take_congr rows _ _ _ _ (by omega) (by omega), ?_⟩
      rw [List.length_take, List.length_drop]
      omega
    · -- s some, e some, l none
      have hsv := hsp sv rfl
      have hsT := (hs sv rfl).resolve_right hT
      have hev := hep ev rfl
      have hsev := hse sv ev rfl rfl
      simp only [fetch_qrels, compute_qrel_window, if_pos h0T, if_pos hsv, if_pos hev]
      refine ⟨drop_take_congr rows _ _ _ _ (by omega) (by omega), ?_⟩
      rw [List.length_take, List.length_drop]
      omega
    · -- s some, e some, l some
      have hsv := hsp sv rfl
      have hsT := (hs sv rfl).resolve_right hT
      have hev := hep ev rfl
      have hsev := hse sv ev rfl rfl
      have hlv := hl lv rfl
      simp only [fetch_qrels, compute_qrel_window, if_pos h0T, if_pos hsv, if_pos hev]
      refine ⟨drop_take_congr rows _ _ _ _ (by omega) (by omega), ?_⟩
      rw [List.length_take, List.length_drop]
      omega

/-- C3 witness: the window `[2, 4]` with limit 2 over a five-row dataset. -/
theorem fetch_qrels_matches_window_witness :
    fetch_qrels (List.range 5) (some 2) (some 4) (some 2)
      = ((List.range 5).drop ((compute_qrel_window ((List.range 5).length : Int)
            (some 2) (some 4) (some 2)).start_1b - 1).toNat).take
          (compute_qrel_window ((List.range 5).length : Int) (some 2) (some 4)
            (some 2)).processed_target.toNat
    ∧ ((fetch_qrels (List.range 5) (some 2) (some 4) (some 2)).length : Int)
        = (compute_qrel_window ((List.range 5).length : Int) (some 2) (some 4)
            (some 2)).processed_target :=
  fetch_qrels_matches_window (List.range 5) (some 2) (some 4) (some 2) rfl
    (by
      intro sv h
      injection h with h2
      subst h2
      left
      decide)

end BT
